import Mathlib

/-!
A shallow embedding of `src/main.py` (a FastAPI + SQLAlchemy + SQLite CRUD
service over a single `studentai` table) and proofs about its behaviour.

Modelling conventions:
* A stored row (`Studentas`) keeps its column values as SQLite dynamically
  typed values (`Value`), since the PATCH handler writes raw request values
  into columns with `setattr` and SQLite stores them as given.
* The pydantic model `StudentoModelis` with its `Field` constraints is
  embedded as the function `validuoti` from raw payloads to validated models.
* Each handler becomes a function from its arguments and the current table
  (a `List Studentas` in rowid order) to an `Except ApiError` result paired
  with the resulting table.
* SQLite assigns a new rowid as one more than the largest rowid in use
  (`nextId`), and enforces the `nullable=False` column constraints at commit
  (`notNullOk`); an `INSERT`/`UPDATE` violating them raises an integrity
  error and the transaction is not committed. Before the statement even
  reaches SQLite, SQLAlchemy's SQLite `Date` bind processor rejects any
  value for the `registracijos_data` column other than NULL or a real date
  (`dateBindOk`), raising a statement error that likewise commits nothing.
* `ilike(f"%{vardas}%")` compiles to a case-insensitive SQL `LIKE` with the
  user string spliced into the pattern, embedded as `likeMatch` over
  ASCII-lowercased character lists.
-/

namespace StudentuApi

/-- A dynamically typed SQLite column value: NULL, an integer, a text
string, or a date (dates abstracted as day numbers). -/
inductive Value where
  | vNull : Value
  | vInt : Int → Value
  | vStr : String → Value
  | vDate : Nat → Value
deriving DecidableEq

/-- The text SQLite renders a value as when it is compared by `LIKE`;
`none` for NULL (a `LIKE` against NULL is NULL, i.e. no match). -/
def Value.toText : Value → Option String
  | .vNull => none
  | .vInt n => some (toString n)
  | .vStr s => some s
  | .vDate d => some (toString d)

/-- One row of the `studentai` table (SQLAlchemy model `Studentas`):
`id` integer primary key; `vardas`, `amzius`, `pazymys` non-nullable
columns; `registracijos_data` nullable. -/
structure Studentas where
  id : Nat
  vardas : Value
  amzius : Value
  pazymys : Value
  registracijos_data : Value
deriving DecidableEq

/-- A raw JSON request body for the full-payload endpoints, before pydantic
validation: every field may be absent. -/
structure Payload where
  id : Option Int
  vardas : Option String
  amzius : Option Int
  pazymys : Option String
  registracijos_data : Option Nat
deriving DecidableEq

/-- The pydantic model `StudentoModelis` after successful validation:
`vardas`, `amzius`, `pazymys` present, `id` and `registracijos_data`
optional. -/
structure StudentoModelis where
  id : Option Int
  vardas : String
  amzius : Int
  pazymys : String
  registracijos_data : Option Nat
deriving DecidableEq

/-- The grades accepted by the pydantic pattern `^(A|B|C|D|F)$`. -/
def leistiniPazymiai : List String := ["A", "B", "C", "D", "F"]

/-- Pydantic validation of `StudentoModelis`: `vardas` required with
`min_length=3, max_length=50`, `amzius` required, `pazymys` required and
matching `^(A|B|C|D|F)$`; `id` and `registracijos_data` optional. -/
def validuoti (p : Payload) : Option StudentoModelis :=
  match p.vardas, p.amzius, p.pazymys with
  | some v, some a, some g =>
    if 3 ≤ v.length ∧ v.length ≤ 50 ∧ g ∈ leistiniPazymiai then
      some ⟨p.id, v, a, g, p.registracijos_data⟩
    else
      none
  | _, _, _ => none

/-- The errors a request can end with: `notFound` is the handler's
`HTTPException(404, detail)`, `validationError` is FastAPI/pydantic
rejecting the body, `integrityError` is SQLite rejecting a commit that
violates a NOT NULL column constraint, `statementError` is SQLAlchemy
failing to bind a raw non-date value for the `Date` column at commit. -/
inductive ApiError where
  | notFound : String → ApiError
  | validationError : ApiError
  | integrityError : ApiError
  | statementError : ApiError
deriving DecidableEq

/-- The fixed 404 detail string used by every handler. -/
def nerastasMsg : String := "Studentas nerastas"

/-- The stored table, in rowid order. -/
abbrev DB := List Studentas

/-- The ids of the stored rows, in table order. -/
def idSarasas (db : DB) : List Nat := db.map (fun s => s.id)

/-- SQLite's rowid assignment for an INSERT without an explicit id: one
more than the largest rowid currently in the table. -/
def nextId (db : DB) : Nat := (idSarasas db).foldr max 0 + 1

/-- The date column value for an optional payload date. -/
def regValue : Option Nat → Value
  | none => .vNull
  | some d => .vDate d

/-- The row a validated model is written to the table as, under a given
id: the payload's `id` field is not among the copied columns. -/
def StudentoModelis.irasas (m : StudentoModelis) (i : Nat) : Studentas :=
  ⟨i, .vStr m.vardas, .vInt m.amzius, .vStr m.pazymys, regValue m.registracijos_data⟩

/-- `sesija.query(Studentas).filter(Studentas.id == i).first()`. -/
def rasti (i : Nat) (db : DB) : Option Studentas :=
  db.find? (fun s => s.id == i)

/-- The NOT NULL column constraints of the `studentai` table, checked by
SQLite when a row is committed. -/
def notNullOk (s : Studentas) : Bool :=
  s.vardas != .vNull && s.amzius != .vNull && s.pazymys != .vNull

/-- SQLAlchemy's SQLite `Date` bind processor: the `registracijos_data`
column (`Column(Date)`) binds only NULL or a real date; a raw string or
integer raises a statement error at commit. The `String`/`Integer`
columns have no such processor — SQLite stores raw values of any type in
them. -/
def dateBindOk : Value → Bool
  | .vNull => true
  | .vDate _ => true
  | .vInt _ => false
  | .vStr _ => false

/-- Replace the first row satisfying `p` by its image under `f` (the ORM
mutates the single row object the query returned). -/
def updFirst (p : Studentas → Bool) (f : Studentas → Studentas) : DB → DB
  | [] => []
  | s :: t => if p s then f s :: t else s :: updFirst p f t

/-- `POST /studentai/` (`sukurti_studenta`): validate the body, insert a
new row built from the validated fields, commit, return the refreshed
row. -/
def sukurti_studenta (p : Payload) (db : DB) : Except ApiError Studentas × DB :=
  match validuoti p with
  | none => (.error .validationError, db)
  | some m =>
    let naujas := m.irasas (nextId db)
    (.ok naujas, db ++ [naujas])

/-- `GET /studentai/{studento_id}` (`gauti_studenta`): first row with the
id, else 404. -/
def gauti_studenta (i : Nat) (db : DB) : Except ApiError Studentas :=
  match rasti i db with
  | none => .error (.notFound nerastasMsg)
  | some s => .ok s

/-- `PUT /studentai/{studento_id}` (`atnaujinti_studenta`): validate the
body, find the row or 404, overwrite all four mutable columns from the
validated fields, commit. -/
def atnaujinti_studenta (i : Nat) (p : Payload) (db : DB) :
    Except ApiError Studentas × DB :=
  match validuoti p with
  | none => (.error .validationError, db)
  | some m =>
    match rasti i db with
    | none => (.error (.notFound nerastasMsg), db)
    | some s =>
      (.ok (m.irasas s.id), updFirst (fun t => t.id == i) (fun t => m.irasas t.id) db)

/-- The keys the PATCH handler recognises (`leistini_poliai`). -/
def leistiniPoliai : List String := ["vardas", "amzius", "pazymys", "registracijos_data"]

/-- One `setattr(studentas, laukas, reiksme)` step of the PATCH handler:
a recognised key overwrites its column with the raw value, any other key
is ignored. -/
def pritaikyti (s : Studentas) (kv : String × Value) : Studentas :=
  if kv.1 = "vardas" then ⟨s.id, kv.2, s.amzius, s.pazymys, s.registracijos_data⟩
  else if kv.1 = "amzius" then ⟨s.id, s.vardas, kv.2, s.pazymys, s.registracijos_data⟩
  else if kv.1 = "pazymys" then ⟨s.id, s.vardas, s.amzius, kv.2, s.registracijos_data⟩
  else if kv.1 = "registracijos_data" then ⟨s.id, s.vardas, s.amzius, s.pazymys, kv.2⟩
  else s

/-- `PATCH /studentai/{studento_id}` (`dalinai_atnaujinti_studenta`): the
body is a raw mapping, never validated; find the row or 404, apply every
recognised key's raw value, commit. The commit fails — leaving the table
unchanged — with a statement error if the resulting `registracijos_data`
is a raw non-date value (SQLAlchemy's `Date` bind processor runs first),
or with an integrity error if a NOT NULL column ended up NULL. -/
def dalinai_atnaujinti_studenta (i : Nat) (atnaujinimai : List (String × Value))
    (db : DB) : Except ApiError Studentas × DB :=
  match rasti i db with
  | none => (.error (.notFound nerastasMsg), db)
  | some s =>
    let s2 := atnaujinimai.foldl pritaikyti s
    if dateBindOk s2.registracijos_data then
      if notNullOk s2 then
        (.ok s2, updFirst (fun t => t.id == i) (fun _ => s2) db)
      else
        (.error .integrityError, db)
    else
      (.error .statementError, db)

/-- `GET /studentai/` (`gauti_visus_studentus`): every row, table order. -/
def gauti_visus_studentus (db : DB) : List Studentas := db

/-- `DELETE /studentai/{studento_id}` (`istrinti_studenta`): find the row
or 404, delete that row, return the confirmation message. -/
def istrinti_studenta (i : Nat) (db : DB) : Except ApiError String × DB :=
  match rasti i db with
  | none => (.error (.notFound nerastasMsg), db)
  | some _ =>
    (.ok "Studentas sėkmingai ištrintas", db.eraseP (fun s => s.id == i))

/-- SQLite's ASCII-only `lower()` on one character. -/
def asciiLower (c : Char) : Char :=
  match c with
  | 'A' => 'a' | 'B' => 'b' | 'C' => 'c' | 'D' => 'd' | 'E' => 'e'
  | 'F' => 'f' | 'G' => 'g' | 'H' => 'h' | 'I' => 'i' | 'J' => 'j'
  | 'K' => 'k' | 'L' => 'l' | 'M' => 'm' | 'N' => 'n' | 'O' => 'o'
  | 'P' => 'p' | 'Q' => 'q' | 'R' => 'r' | 'S' => 's' | 'T' => 't'
  | 'U' => 'u' | 'V' => 'v' | 'W' => 'w' | 'X' => 'x' | 'Y' => 'y'
  | 'Z' => 'z'
  | c => c

/-- SQLite's ASCII-only `lower()` on a string's characters. -/
def lowerChars (l : List Char) : List Char := l.map asciiLower

/-- `f` holds of some suffix of the list (including the list itself and
`[]`). -/
def anySuffix (f : List Char → Bool) : List Char → Bool
  | [] => f []
  | c :: t => f (c :: t) || anySuffix f t

/-- SQL `LIKE` pattern matching: `%` matches any sequence, `_` any single
character, anything else itself. -/
def likeMatch : List Char → List Char → Bool
  | [], t => t.isEmpty
  | p :: ps, t =>
    if p = '%' then anySuffix (fun u => likeMatch ps u) t
    else
      match t with
      | [] => false
      | c :: u => (p = '_' || p == c) && likeMatch ps u

/-- `GET /studentai/ieskoti/?vardas=` (`ieskoti_studentu`): every row whose
`vardas` matches the case-insensitive `LIKE` pattern `f"%{vardas}%"` — the
user string is spliced into the pattern verbatim, so `%` and `_` in it act
as wildcards; a NULL `vardas` never matches. -/
def ieskoti_studentu (vardas : String) (db : DB) : List Studentas :=
  db.filter fun s =>
    match s.vardas.toText with
    | none => false
    | some t => likeMatch (lowerChars (('%' :: vardas.toList) ++ ['%'])) (lowerChars t.toList)

/-- Does a list of characters start with another? -/
def isPref : List Char → List Char → Bool
  | [], _ => true
  | _ :: _, [] => false
  | a :: n, b :: h => a == b && isPref n h

/-- Written from the spec's words, for comparison with the code's search:
`needle` occurs in `hay` as a contiguous substring, i.e. some suffix of
`hay` starts with `needle`. -/
def spec_contains (needle hay : List Char) : Bool :=
  anySuffix (fun u => isPref needle u) hay

/-- Written from the spec's words: the record's name contains the search
string as a case-insensitive substring. -/
def spec_name_match (vardas : String) (s : Studentas) : Bool :=
  match s.vardas.toText with
  | none => false
  | some t => spec_contains (lowerChars vardas.toList) (lowerChars t.toList)

/-- The search string contains no `LIKE` wildcard character. -/
def noWild (l : List Char) : Bool :=
  l.all fun c => !(c == '%') && !(c == '_')

/-- The HTTP routes the application registers, as (method, path) pairs.
The seven `/studentai` routes are the decorators of `src/main.py`; the
root route is taken from the spec's interface table (see
`sveikinimo_zinute`). -/
def appMarsrutai : List (String × String) :=
  [ ("GET", "/"),
    ("POST", "/studentai/"),
    ("GET", "/studentai/{studento_id}"),
    ("PUT", "/studentai/{studento_id}"),
    ("PATCH", "/studentai/{studento_id}"),
    ("GET", "/studentai/"),
    ("DELETE", "/studentai/{studento_id}"),
    ("GET", "/studentai/ieskoti/") ]

/-- Modelled from the spec: the repository's second, near-duplicate
application file (not under `src/`) registers `GET /` returning a welcome
message; only the message's existence is specified, its wording is not. -/
def sveikinimo_zinute : String := "Sveiki atvyke i studentu API"

/-- No row of the table has a NULL `vardas` (the NOT NULL constraint the
storage enforces on every committed row). -/
def vardaiNeNull (db : DB) : Prop := ∀ s ∈ db, s.vardas ≠ Value.vNull

/-! Concrete payloads, rows and tables used by witnesses and
counterexamples. -/

/-- A valid create payload. -/
def pJonas : Payload := ⟨none, some "Jonas", some 20, some "A", none⟩

/-- The row `pJonas` creates in an empty table. -/
def stJonas : Studentas := ⟨1, .vStr "Jonas", .vInt 20, .vStr "A", .vNull⟩

/-- A valid payload with a client-supplied `id` and a date. -/
def pAsta : Payload := ⟨some 99, some "Asta", some 22, some "B", some 7⟩

/-- The row `pAsta` creates in `[stJonas]`. -/
def stAsta : Studentas := ⟨2, .vStr "Asta", .vInt 22, .vStr "B", .vDate 7⟩

/-- A valid payload used for the creation after a deletion. -/
def pKazys : Payload := ⟨none, some "Kazys", some 23, some "C", none⟩

/-- The row `pKazys` creates in `[stJonas]`: it receives id 2 again. -/
def stKazys : Studentas := ⟨2, .vStr "Kazys", .vInt 23, .vStr "C", .vNull⟩

/-- A row whose name is `"abc"`. -/
def stAbc : Studentas := ⟨1, .vStr "abc", .vInt 20, .vStr "A", .vNull⟩

/-- A payload whose name has length 2. -/
def pBadName : Payload := ⟨none, some "ab", some 20, some "A", none⟩

/-- A payload whose grade is the excluded `"E"`. -/
def pBadGrade : Payload := ⟨none, some "Jonas", some 20, some "E", none⟩

/-- Seed row 1 of the spec's search example. -/
def stAlice : Studentas := ⟨1, .vStr "Alice", .vInt 20, .vStr "A", .vNull⟩

/-- Seed row 2 of the spec's search example. -/
def stAlicia : Studentas := ⟨2, .vStr "alicia", .vInt 21, .vStr "B", .vNull⟩

/-- Seed row 3 of the spec's search example. -/
def stBob : Studentas := ⟨3, .vStr "Bob", .vInt 22, .vStr "C", .vNull⟩

/-- The spec's seed table: Alice, alicia, Bob. -/
def dbSeed : DB := [stAlice, stAlicia, stBob]

/-- The Bool test matching `laukas in leistini_poliai` of the PATCH
handler. -/
def yraLeistinas (k : String) : Bool :=
  k == "vardas" || k == "amzius" || k == "pazymys" || k == "registracijos_data"

/-! Helper lemmas. -/

theorem mem_le_foldr_max (l : List Nat) (x : Nat) (hx : x ∈ l) : x ≤ l.foldr max 0 := by
  induction l with
  | nil => cases hx
  | cons a t ih =>
    rcases List.mem_cons.mp hx with h | h
    · subst h; exact Nat.le_max_left _ _
    · exact le_trans (ih h) (Nat.le_max_right _ _)

theorem id_ne_nextId {db : DB} {s : Studentas} (hs : s ∈ db) : s.id ≠ nextId db := by
  have h := mem_le_foldr_max (idSarasas db) s.id (List.mem_map_of_mem _ hs)
  unfold nextId
  omega

theorem rasti_eq_none_iff {i : Nat} {db : DB} : rasti i db = none ↔ ∀ s ∈ db, s.id ≠ i := by
  simp [rasti, List.find?_eq_none]

theorem rasti_nextId (db : DB) : rasti (nextId db) db = none :=
  rasti_eq_none_iff.mpr fun _ hs => id_ne_nextId hs

theorem rasti_append {i : Nat} {db l : DB} (h : rasti i db = none) :
    rasti i (db ++ l) = rasti i l := by
  unfold rasti at *
  rw [List.find?_append, h, Option.none_or]

theorem rasti_mem {i : Nat} {db : DB} {s : Studentas} (h : rasti i db = some s) :
    s ∈ db ∧ s.id = i := by
  unfold rasti at h
  exact ⟨List.mem_of_find?_eq_some h, by simpa using List.find?_some h⟩

theorem idSarasas_updFirst {p : Studentas → Bool} {f : Studentas → Studentas}
    (h : ∀ t, p t = true → (f t).id = t.id) :
    ∀ db : DB, idSarasas (updFirst p f db) = idSarasas db := by
  intro db
  induction db with
  | nil => rfl
  | cons a t ih =>
    cases hpa : p a with
    | true => simp [updFirst, hpa, idSarasas, h a hpa]
    | false =>
      simp only [updFirst, hpa, Bool.false_eq_true, if_false, idSarasas, List.map_cons]
      simpa [idSarasas] using ih

theorem mem_updFirst {p : Studentas → Bool} {f : Studentas → Studentas} {x : Studentas} :
    ∀ {db : DB}, x ∈ updFirst p f db → x ∈ db ∨ ∃ t, t ∈ db ∧ x = f t := by
  intro db
  induction db with
  | nil => intro h; cases h
  | cons a t ih =>
    intro hx
    cases hpa : p a with
    | true =>
      rw [updFirst, if_pos hpa] at hx
      rcases List.mem_cons.mp hx with h | h
      · exact Or.inr ⟨a, List.mem_cons_self a t, h⟩
      · exact Or.inl (List.mem_cons_of_mem a h)
    | false =>
      rw [updFirst, if_neg (by simp [hpa])] at hx
      rcases List.mem_cons.mp hx with h | h
      · exact Or.inl (h ▸ List.mem_cons_self a t)
      · rcases ih h with h2 | ⟨u, hu, hxu⟩
        · exact Or.inl (List.mem_cons_of_mem a h2)
        · exact Or.inr ⟨u, List.mem_cons_of_mem a hu, hxu⟩

theorem rasti_cons_pos {i : Nat} {a : Studentas} {t : DB} (h : (a.id == i) = true) :
    rasti i (a :: t) = some a := by
  simp [rasti, List.find?_cons, h]

theorem rasti_cons_neg {i : Nat} {a : Studentas} {t : DB} (h : (a.id == i) = false) :
    rasti i (a :: t) = rasti i t := by
  simp [rasti, List.find?_cons, h]

theorem idSarasas_updFirst_const {i : Nat} {s2 : Studentas} :
    ∀ {db : DB} {s : Studentas}, rasti i db = some s → s2.id = s.id →
      idSarasas (updFirst (fun t => t.id == i) (fun _ => s2) db) = idSarasas db := by
  intro db
  induction db with
  | nil => intro s hf _; cases hf
  | cons a t ih =>
    intro s hf hid
    cases hpa : (a.id == i) with
    | true =>
      rw [rasti_cons_pos hpa] at hf
      cases hf
      simp [updFirst, hpa, idSarasas, hid]
    | false =>
      rw [rasti_cons_neg hpa] at hf
      simp only [updFirst, hpa, Bool.false_eq_true, if_false, idSarasas, List.map_cons]
      simpa [idSarasas] using ih hf hid

theorem rasti_eraseP {i : Nat} :
    ∀ {db : DB}, (idSarasas db).Nodup →
      rasti i (db.eraseP (fun s => s.id == i)) = none := by
  intro db
  induction db with
  | nil => intro _; rfl
  | cons a t ih =>
    intro hnd
    have hnd2 : (idSarasas t).Nodup := by
      simpa [idSarasas] using (List.nodup_cons.mp (by simpa [idSarasas] using hnd)).2
    cases hpa : (a.id == i) with
    | true =>
      have he : List.eraseP (fun s => s.id == i) (a :: t) = t :=
        List.eraseP_cons_of_pos hpa
      rw [he]
      have hai : a.id = i := by simpa using hpa
      have hnotin : a.id ∉ idSarasas t :=
        (List.nodup_cons.mp (by simpa [idSarasas] using hnd)).1
      exact rasti_eq_none_iff.mpr fun s hs hsi => hnotin (by
        rw [hai, ← hsi]
        exact List.mem_map_of_mem _ hs)
    | false =>
      have he : List.eraseP (fun s => s.id == i) (a :: t) =
          a :: List.eraseP (fun s => s.id == i) t :=
        List.eraseP_cons_of_neg (by simp [hpa])
      rw [he, rasti_cons_neg hpa]
      exact ih hnd2

/-! `pritaikyti` / `foldl` lemmas for the PATCH handler. -/

theorem pritaikyti_id (s : Studentas) (kv : String × Value) :
    (pritaikyti s kv).id = s.id := by
  unfold pritaikyti
  split_ifs <;> rfl

theorem foldl_pritaikyti_id (m : List (String × Value)) :
    ∀ s : Studentas, (m.foldl pritaikyti s).id = s.id := by
  induction m with
  | nil => intro s; rfl
  | cons kv t ih =>
    intro s
    rw [List.foldl_cons, ih, pritaikyti_id]

theorem pritaikyti_vardas {s : Studentas} {kv : String × Value} (h : kv.1 ≠ "vardas") :
    (pritaikyti s kv).vardas = s.vardas := by
  unfold pritaikyti
  split_ifs with h1 h2 h3 h4 <;> first | rfl | exact absurd h1 h

theorem pritaikyti_amzius {s : Studentas} {kv : String × Value} (h : kv.1 ≠ "amzius") :
    (pritaikyti s kv).amzius = s.amzius := by
  unfold pritaikyti
  split_ifs with h1 h2 h3 h4 <;> first | rfl | exact absurd h2 h

theorem pritaikyti_pazymys {s : Studentas} {kv : String × Value} (h : kv.1 ≠ "pazymys") :
    (pritaikyti s kv).pazymys = s.pazymys := by
  unfold pritaikyti
  split_ifs with h1 h2 h3 h4 <;> first | rfl | exact absurd h3 h

theorem pritaikyti_regdata {s : Studentas} {kv : String × Value}
    (h : kv.1 ≠ "registracijos_data") :
    (pritaikyti s kv).registracijos_data = s.registracijos_data := by
  unfold pritaikyti
  split_ifs with h1 h2 h3 h4 <;> first | rfl | exact absurd h4 h

/-- A key outside the recognised set leaves the row unchanged. -/
theorem pritaikyti_unrecognised {s : Studentas} {kv : String × Value}
    (h : kv.1 ∉ leistiniPoliai) : pritaikyti s kv = s := by
  simp only [leistiniPoliai, List.mem_cons, List.mem_singleton, not_or] at h
  unfold pritaikyti
  split_ifs with h1 h2 h3 h4
  · exact absurd h1 h.1
  · exact absurd h2 h.2.1
  · exact absurd h3 h.2.2.1
  · exact absurd h4 h.2.2.2.1
  · rfl

theorem foldl_pritaikyti_vardas {m : List (String × Value)}
    (h : "vardas" ∉ m.map Prod.fst) :
    ∀ s : Studentas, (m.foldl pritaikyti s).vardas = s.vardas := by
  induction m with
  | nil => intro s; rfl
  | cons kv t ih =>
    intro s
    simp only [List.map_cons, List.mem_cons, not_or] at h
    rw [List.foldl_cons, ih (by simpa using h.2), pritaikyti_vardas (fun he => h.1 he.symm)]

theorem foldl_pritaikyti_amzius {m : List (String × Value)}
    (h : "amzius" ∉ m.map Prod.fst) :
    ∀ s : Studentas, (m.foldl pritaikyti s).amzius = s.amzius := by
  induction m with
  | nil => intro s; rfl
  | cons kv t ih =>
    intro s
    simp only [List.map_cons, List.mem_cons, not_or] at h
    rw [List.foldl_cons, ih (by simpa using h.2), pritaikyti_amzius (fun he => h.1 he.symm)]

theorem foldl_pritaikyti_pazymys {m : List (String × Value)}
    (h : "pazymys" ∉ m.map Prod.fst) :
    ∀ s : Studentas, (m.foldl pritaikyti s).pazymys = s.pazymys := by
  induction m with
  | nil => intro s; rfl
  | cons kv t ih =>
    intro s
    simp only [List.map_cons, List.mem_cons, not_or] at h
    rw [List.foldl_cons, ih (by simpa using h.2), pritaikyti_pazymys (fun he => h.1 he.symm)]

theorem foldl_pritaikyti_regdata {m : List (String × Value)}
    (h : "registracijos_data" ∉ m.map Prod.fst) :
    ∀ s : Studentas, (m.foldl pritaikyti s).registracijos_data = s.registracijos_data := by
  induction m with
  | nil => intro s; rfl
  | cons kv t ih =>
    intro s
    simp only [List.map_cons, List.mem_cons, not_or] at h
    rw [List.foldl_cons, ih (by simpa using h.2), pritaikyti_regdata (fun he => h.1 he.symm)]

theorem pritaikyti_of_not_leistinas {s : Studentas} {kv : String × Value}
    (h : yraLeistinas kv.1 = false) : pritaikyti s kv = s := by
  apply pritaikyti_unrecognised
  simp only [yraLeistinas, Bool.or_eq_false_iff, beq_eq_false_iff_ne, ne_eq] at h
  simp [leistiniPoliai]
  exact ⟨h.1.1.1, h.1.1.2, h.1.2, h.2⟩

theorem foldl_pritaikyti_filter (m : List (String × Value)) :
    ∀ s : Studentas,
      (m.filter fun kv => yraLeistinas kv.1).foldl pritaikyti s = m.foldl pritaikyti s := by
  induction m with
  | nil => intro s; rfl
  | cons kv t ih =>
    intro s
    cases hk : yraLeistinas kv.1 with
    | true =>
      have he : (kv :: t).filter (fun kv => yraLeistinas kv.1) =
          kv :: t.filter (fun kv => yraLeistinas kv.1) :=
        List.filter_cons_of_pos hk
      rw [he, List.foldl_cons, List.foldl_cons, ih]
    | false =>
      have he : (kv :: t).filter (fun kv => yraLeistinas kv.1) =
          t.filter (fun kv => yraLeistinas kv.1) :=
        List.filter_cons_of_neg (by simp [hk])
      rw [he, List.foldl_cons, pritaikyti_of_not_leistinas hk, ih]

theorem notNullOk_vardas {s : Studentas} (h : notNullOk s = true) :
    s.vardas ≠ Value.vNull := by
  simp only [notNullOk, Bool.and_eq_true, bne_iff_ne, ne_eq] at h
  exact h.1.1

/-! `LIKE` pattern lemmas. -/

theorem anySuffix_of_nil {f : List Char → Bool} (h : f [] = true) :
    ∀ t, anySuffix f t = true := by
  intro t
  induction t with
  | nil => simpa [anySuffix] using h
  | cons c u ih => simp [anySuffix, ih]

theorem anySuffix_congr {f g : List Char → Bool} (h : ∀ u, f u = g u) :
    ∀ t, anySuffix f t = anySuffix g t := by
  intro t
  induction t with
  | nil => simp [anySuffix, h]
  | cons c u ih => simp [anySuffix, h, ih]

theorem likeMatch_pct_nil : ∀ t, likeMatch ['%'] t = true := by
  intro t
  show (if '%' = '%' then anySuffix (fun u => likeMatch [] u) t else _) = true
  rw [if_pos rfl]
  exact anySuffix_of_nil rfl t

theorem likeMatch_pct_pct : ∀ t, likeMatch ['%', '%'] t = true := by
  intro t
  show (if '%' = '%' then anySuffix (fun u => likeMatch ['%'] u) t else _) = true
  rw [if_pos rfl]
  exact anySuffix_of_nil (likeMatch_pct_nil []) t

theorem noWild_cons {a : Char} {ps : List Char} (hw : noWild (a :: ps) = true) :
    ¬a = '%' ∧ ¬a = '_' ∧ noWild ps = true := by
  simp only [noWild, List.all_cons, Bool.and_eq_true, Bool.not_eq_true',
    beq_eq_false_iff_ne, ne_eq] at hw ⊢
  exact ⟨hw.1.1, hw.1.2, hw.2⟩

theorem likeMatch_lit {ps : List Char} (hw : noWild ps = true) :
    ∀ t, likeMatch (ps ++ ['%']) t = isPref ps t := by
  induction ps with
  | nil =>
    intro t
    simpa [isPref] using likeMatch_pct_nil t
  | cons a ps ih =>
    intro t
    obtain ⟨ha1, ha2, hps⟩ := noWild_cons hw
    cases t with
    | nil => simp [likeMatch, isPref, if_neg ha1]
    | cons c u =>
      simp only [List.cons_append, likeMatch, if_neg ha1, isPref,
        decide_eq_false ha2, Bool.false_or]
      exact congrArg (fun b => a == c && b) (ih hps u)

theorem likeMatch_contains {ps : List Char} (hw : noWild ps = true) :
    ∀ t, likeMatch ('%' :: (ps ++ ['%'])) t = spec_contains ps t := by
  intro t
  show (if '%' = '%' then anySuffix (fun u => likeMatch (ps ++ ['%']) u) t else _) = _
  rw [if_pos rfl]
  exact anySuffix_congr (fun u => likeMatch_lit hw u) t

theorem asciiLower_pct {c : Char} (h : asciiLower c = '%') : c = '%' := by
  unfold asciiLower at h
  split at h <;> simp_all

theorem asciiLower_us {c : Char} (h : asciiLower c = '_') : c = '_' := by
  unfold asciiLower at h
  split at h <;> simp_all

theorem noWild_lowerChars {l : List Char} (h : noWild l = true) :
    noWild (lowerChars l) = true := by
  simp only [noWild, lowerChars, List.all_map, List.all_eq_true, Function.comp,
    Bool.and_eq_true, Bool.not_eq_true', beq_eq_false_iff_ne, ne_eq] at h ⊢
  intro c hc
  exact ⟨fun hp => (h c hc).1 (asciiLower_pct hp), fun hp => (h c hc).2 (asciiLower_us hp)⟩

/-! Validation and creation helpers. -/

theorem nextId_not_mem (db : DB) : nextId db ∉ idSarasas db := by
  intro h
  obtain ⟨s, hs, he⟩ := List.mem_map.mp h
  exact id_ne_nextId hs he

theorem validuoti_eq_some {p : Payload} {m : StudentoModelis} (h : validuoti p = some m) :
    p.vardas = some m.vardas ∧ p.amzius = some m.amzius ∧ p.pazymys = some m.pazymys ∧
    p.id = m.id ∧ p.registracijos_data = m.registracijos_data ∧
    3 ≤ m.vardas.length ∧ m.vardas.length ≤ 50 ∧ m.pazymys ∈ leistiniPazymiai := by
  unfold validuoti at h
  rcases hV : p.vardas with _ | v <;> rw [hV] at h
  · cases h
  rcases hA : p.amzius with _ | a <;> rw [hA] at h
  · cases h
  rcases hG : p.pazymys with _ | g <;> rw [hG] at h
  · cases h
  dsimp only at h
  split_ifs at h with hc
  obtain ⟨h1, h2, h3⟩ := hc
  cases h
  exact ⟨rfl, rfl, rfl, rfl, rfl, h1, h2, h3⟩

theorem validuoti_mk {v g : String} {a : Int} {pid : Option Int} {rd : Option Nat}
    (h1 : 3 ≤ v.length) (h2 : v.length ≤ 50) (h3 : g ∈ leistiniPazymiai) :
    validuoti ⟨pid, some v, some a, some g, rd⟩ = some ⟨pid, v, a, g, rd⟩ := by
  unfold validuoti
  dsimp only
  rw [if_pos ⟨h1, h2, h3⟩]

theorem rasti_create (db : DB) (m : StudentoModelis) :
    rasti (nextId db) (db ++ [m.irasas (nextId db)]) = some (m.irasas (nextId db)) := by
  rw [rasti_append (rasti_nextId db)]
  exact rasti_cons_pos (by simp [StudentoModelis.irasas])

theorem foldl_pritaikyti_unrecognised {mp : List (String × Value)}
    (h : ∀ kv ∈ mp, yraLeistinas kv.1 = false) :
    ∀ s : Studentas, mp.foldl pritaikyti s = s := by
  induction mp with
  | nil => intro s; rfl
  | cons kv t ih =>
    intro s
    rw [List.foldl_cons, pritaikyti_of_not_leistinas (h kv (List.mem_cons_self kv t)),
      ih fun u hu => h u (List.mem_cons_of_mem kv hu)]

/-! The claims. -/

/-- C1: for every payload that passes full validation, create returns a
record whose columns are the payload's validated fields together with a
newly assigned id (one not present in the table before the call), the new
table is the old one with that record appended, and get-by-id with the new
id returns exactly the record create returned. -/
theorem claim1_create_then_get (db : DB) (p : Payload) (m : StudentoModelis)
    (r : Studentas) (db2 : DB)
    (hv : validuoti p = some m)
    (hc : sukurti_studenta p db = (.ok r, db2)) :
    r.vardas = .vStr m.vardas ∧ r.amzius = .vInt m.amzius ∧
    r.pazymys = .vStr m.pazymys ∧
    r.registracijos_data = regValue m.registracijos_data ∧
    r.id = nextId db ∧ r.id ∉ idSarasas db ∧
    db2 = db ++ [r] ∧
    gauti_studenta r.id db2 = .ok r := by
  unfold sukurti_studenta at hc
  rw [hv] at hc
  injection hc with hc1 hc2
  injection hc1 with hc1
  subst hc1
  subst hc2
  refine ⟨rfl, rfl, rfl, rfl, rfl, nextId_not_mem db, rfl, ?_⟩
  show gauti_studenta (nextId db) (db ++ [m.irasas (nextId db)]) = _
  unfold gauti_studenta
  rw [rasti_create db m]

/-- C1 witness: creating Jonas in the empty table and reading id 1 back. -/
theorem claim1_witness : gauti_studenta stJonas.id [stJonas] = .ok stJonas :=
  (claim1_create_then_get [] pJonas ⟨none, "Jonas", 20, "A", none⟩ stJonas
    [stJonas] rfl rfl).2.2.2.2.2.2.2

/-- C2: a payload with a missing `vardas`/`amzius`/`pazymys`, a `vardas`
of length outside `[3, 50]`, or a `pazymys` outside `{A, B, C, D, F}` is
rejected by validation on both create and full-update, and the table is
left unchanged. -/
theorem claim2_invalid_payload_rejected (db : DB) (i : Nat) (p : Payload)
    (hbad :
      p.vardas = none ∨ p.amzius = none ∨ p.pazymys = none ∨
      (∃ v, p.vardas = some v ∧ (v.length < 3 ∨ 50 < v.length)) ∨
      (∃ g, p.pazymys = some g ∧ g ∉ leistiniPazymiai)) :
    sukurti_studenta p db = (.error .validationError, db) ∧
    atnaujinti_studenta i p db = (.error .validationError, db) := by
  have hv : validuoti p = none := by
    cases hvv : validuoti p with
    | none => rfl
    | some m =>
      exfalso
      obtain ⟨e1, e2, e3, _, _, h1, h2, h3⟩ := validuoti_eq_some hvv
      rcases hbad with h | h | h | ⟨v, hv1, hlen⟩ | ⟨g, hg1, hgm⟩
      · rw [h] at e1; cases e1
      · rw [h] at e2; cases e2
      · rw [h] at e3; cases e3
      · rw [hv1] at e1
        injection e1 with e1
        rw [e1] at hlen
        omega
      · rw [hg1] at e3
        injection e3 with e3
        rw [e3] at hgm
        exact hgm h3
  constructor
  · unfold sukurti_studenta
    rw [hv]
  · unfold atnaujinti_studenta
    rw [hv]

/-- C2 witness: a length-2 name and the grade `"E"` are both rejected by
create and by full-update, leaving the seed table unchanged. -/
theorem claim2_witness :
    sukurti_studenta pBadName dbSeed = (.error .validationError, dbSeed) ∧
    sukurti_studenta pBadGrade dbSeed = (.error .validationError, dbSeed) ∧
    atnaujinti_studenta 1 pBadGrade dbSeed = (.error .validationError, dbSeed) :=
  ⟨(claim2_invalid_payload_rejected dbSeed 1 pBadName
      (Or.inr (Or.inr (Or.inr (Or.inl ⟨"ab", rfl, Or.inl (by decide)⟩))))).1,
   (claim2_invalid_payload_rejected dbSeed 1 pBadGrade
      (Or.inr (Or.inr (Or.inr (Or.inr ⟨"E", rfl, by decide⟩))))).1,
   (claim2_invalid_payload_rejected dbSeed 1 pBadGrade
      (Or.inr (Or.inr (Or.inr (Or.inr ⟨"E", rfl, by decide⟩))))).2⟩

/-- C3 counterexample: the claim says partial-update succeeds for every
mapping of field names to values; but on the seed table, whose id 1
exists, patching `vardas` to NULL fails (a storage integrity error, the
`vardas` column being NOT NULL), and patching `registracijos_data` to the
raw string `"oops"` fails too (a statement error from the `Date` column's
bind processor); both persist nothing. -/
theorem claim3_counterexample :
    rasti 1 dbSeed = some stAlice ∧
    dalinai_atnaujinti_studenta 1 [("vardas", Value.vNull)] dbSeed
      = (.error .integrityError, dbSeed) ∧
    dalinai_atnaujinti_studenta 1 [("registracijos_data", Value.vStr "oops")] dbSeed
      = (.error .statementError, dbSeed) :=
  ⟨rfl, rfl, rfl⟩

/-- C3 amended: partial-update never raises a validation error for any id
and any mapping; unrecognised keys are silently dropped (filtering them
out of the mapping leaves the outcome unchanged); whenever the row
resulting from applying every recognised key's raw value binds (its
`registracijos_data` is NULL or a date) and satisfies the NOT NULL column
constraints, the call succeeds and persists those raw, unvalidated
values — constraint-violating values included; otherwise the commit fails
with a statement error (raw non-date `registracijos_data`) or an
integrity error (NULL in a NOT NULL column), persisting nothing. -/
theorem claim3_patch_unvalidated (db : DB) (i : Nat) (mp : List (String × Value))
    (s : Studentas) (hf : rasti i db = some s) :
    (∀ (j : Nat) (mm : List (String × Value)),
       (dalinai_atnaujinti_studenta j mm db).1 ≠ .error .validationError) ∧
    dalinai_atnaujinti_studenta i mp db =
      dalinai_atnaujinti_studenta i (mp.filter fun kv => yraLeistinas kv.1) db ∧
    (dateBindOk (mp.foldl pritaikyti s).registracijos_data = true →
     notNullOk (mp.foldl pritaikyti s) = true →
      dalinai_atnaujinti_studenta i mp db =
        (.ok (mp.foldl pritaikyti s),
         updFirst (fun t => t.id == i) (fun _ => mp.foldl pritaikyti s) db)) ∧
    (dateBindOk (mp.foldl pritaikyti s).registracijos_data = false →
      dalinai_atnaujinti_studenta i mp db = (.error .statementError, db)) ∧
    (dateBindOk (mp.foldl pritaikyti s).registracijos_data = true →
     notNullOk (mp.foldl pritaikyti s) = false →
      dalinai_atnaujinti_studenta i mp db = (.error .integrityError, db)) := by
  refine ⟨?_, ?_, ?_, ?_, ?_⟩
  · intro j mm
    unfold dalinai_atnaujinti_studenta
    cases h : rasti j db with
    | none => simp
    | some u =>
      dsimp only
      split_ifs <;> simp
  · unfold dalinai_atnaujinti_studenta
    rw [hf]
    dsimp only
    rw [foldl_pritaikyti_filter]
  · intro hd hnn
    unfold dalinai_atnaujinti_studenta
    rw [hf]
    dsimp only
    rw [if_pos hd, if_pos hnn]
  · intro hd
    unfold dalinai_atnaujinti_studenta
    rw [hf]
    dsimp only
    rw [if_neg (by rw [hd]; exact Bool.false_ne_true)]
  · intro hd hnn
    unfold dalinai_atnaujinti_studenta
    rw [hf]
    dsimp only
    rw [if_pos hd, if_neg (by rw [hnn]; exact Bool.false_ne_true)]

/-- C3 witness: on the seed table, a patch writing the length-2 name
`"ab"` and the excluded grade `"E"` alongside the unrecognised key
`"foo"` succeeds and persists the constraint-violating values. -/
theorem claim3_witness :
    dalinai_atnaujinti_studenta 1
      [("pazymys", Value.vStr "E"), ("foo", Value.vStr "bar"), ("vardas", Value.vStr "ab")]
      dbSeed
    = (.ok ⟨1, .vStr "ab", .vInt 20, .vStr "E", .vNull⟩,
       [⟨1, .vStr "ab", .vInt 20, .vStr "E", .vNull⟩, stAlicia, stBob]) :=
  ((claim3_patch_unvalidated dbSeed 1
      [("pazymys", Value.vStr "E"), ("foo", Value.vStr "bar"), ("vardas", Value.vStr "ab")]
      stAlice rfl).2.2.1 (by decide) (by decide)).trans rfl

/-- C4: a valid full-update on an existing row replaces all four mutable
columns with the payload's values and keeps the id; a partial-update's
result keeps every field whose key is absent from the mapping, and keeps
the whole row when every supplied key is unrecognised. -/
theorem claim4_update_frame :
    (∀ (db : DB) (i : Nat) (p : Payload) (m : StudentoModelis) (s : Studentas),
       validuoti p = some m → rasti i db = some s →
       atnaujinti_studenta i p db =
         (.ok (m.irasas s.id),
          updFirst (fun t => t.id == i) (fun t => m.irasas t.id) db) ∧
       (m.irasas s.id).vardas = .vStr m.vardas ∧
       (m.irasas s.id).amzius = .vInt m.amzius ∧
       (m.irasas s.id).pazymys = .vStr m.pazymys ∧
       (m.irasas s.id).registracijos_data = regValue m.registracijos_data ∧
       (m.irasas s.id).id = s.id) ∧
    (∀ (db : DB) (i : Nat) (mp : List (String × Value)) (s r : Studentas),
       rasti i db = some s →
       (dalinai_atnaujinti_studenta i mp db).1 = .ok r →
       ("vardas" ∉ mp.map Prod.fst → r.vardas = s.vardas) ∧
       ("amzius" ∉ mp.map Prod.fst → r.amzius = s.amzius) ∧
       ("pazymys" ∉ mp.map Prod.fst → r.pazymys = s.pazymys) ∧
       ("registracijos_data" ∉ mp.map Prod.fst →
          r.registracijos_data = s.registracijos_data) ∧
       ((∀ kv ∈ mp, yraLeistinas kv.1 = false) → r = s)) := by
  constructor
  · intro db i p m s hv hf
    unfold atnaujinti_studenta
    rw [hv, hf]
    exact ⟨rfl, rfl, rfl, rfl, rfl, rfl⟩
  · intro db i mp s r hf hok
    unfold dalinai_atnaujinti_studenta at hok
    rw [hf] at hok
    dsimp only at hok
    split_ifs at hok with hnn
    · injection hok with hok
      subst hok
      exact ⟨fun h => foldl_pritaikyti_vardas h s,
             fun h => foldl_pritaikyti_amzius h s,
             fun h => foldl_pritaikyti_pazymys h s,
             fun h => foldl_pritaikyti_regdata h s,
             fun h => foldl_pritaikyti_unrecognised h s⟩

/-- C4 witness: full-updating id 2 of the seed table with Asta's payload
replaces all four columns, and a patch of id 3 touching only `amzius`
(plus an unrecognised key) leaves the other three fields of Bob's row as
they were. -/
theorem claim4_witness :
    atnaujinti_studenta 2 pAsta dbSeed = (.ok stAsta, [stAlice, stAsta, stBob]) ∧
    ((⟨3, .vStr "Bob", .vInt 30, .vStr "C", .vNull⟩ : Studentas).vardas = stBob.vardas ∧
     (⟨3, .vStr "Bob", .vInt 30, .vStr "C", .vNull⟩ : Studentas).pazymys = stBob.pazymys ∧
     (⟨3, .vStr "Bob", .vInt 30, .vStr "C", .vNull⟩ : Studentas).registracijos_data
       = stBob.registracijos_data) := by
  have h1 := (claim4_update_frame.1 dbSeed 2 pAsta ⟨some 99, "Asta", 22, "B", some 7⟩
    stAlicia rfl rfl).1
  have h2 := claim4_update_frame.2 dbSeed 3 [("amzius", Value.vInt 30), ("foo", Value.vStr "x")]
    stBob ⟨3, .vStr "Bob", .vInt 30, .vStr "C", .vNull⟩ rfl rfl
  exact ⟨h1.trans rfl, h2.1 (by decide), h2.2.2.1 (by decide), h2.2.2.2.1 (by decide)⟩

/-- C5: get-by-id, full-update, partial-update and delete answer 404
exactly when no row carries the requested id; every not-found error
carries the one fixed message; and after a successful delete of an id
(on a table with distinct ids) get-by-id on that id answers 404. -/
theorem claim5_not_found :
    (∀ (db : DB) (i : Nat),
       (gauti_studenta i db = .error (.notFound nerastasMsg) ↔ ∀ s ∈ db, s.id ≠ i) ∧
       ∀ e, gauti_studenta i db = .error e → e = .notFound nerastasMsg) ∧
    (∀ (db : DB) (i : Nat),
       ((istrinti_studenta i db).1 = .error (.notFound nerastasMsg) ↔ ∀ s ∈ db, s.id ≠ i) ∧
       ∀ e, (istrinti_studenta i db).1 = .error e → e = .notFound nerastasMsg) ∧
    (∀ (db : DB) (i : Nat) (mp : List (String × Value)),
       ((dalinai_atnaujinti_studenta i mp db).1 = .error (.notFound nerastasMsg) ↔
          ∀ s ∈ db, s.id ≠ i) ∧
       ∀ d, (dalinai_atnaujinti_studenta i mp db).1 = .error (.notFound d) →
         d = nerastasMsg) ∧
    (∀ (db : DB) (i : Nat) (p : Payload),
       (∀ d, (atnaujinti_studenta i p db).1 = .error (.notFound d) →
          d = nerastasMsg ∧ ∀ s ∈ db, s.id ≠ i) ∧
       (∀ m, validuoti p = some m → (∀ s ∈ db, s.id ≠ i) →
          (atnaujinti_studenta i p db).1 = .error (.notFound nerastasMsg))) ∧
    (∀ (db : DB) (i : Nat) (d : String),
       (idSarasas db).Nodup → (istrinti_studenta i db).1 = .ok d →
       gauti_studenta i (istrinti_studenta i db).2 = .error (.notFound nerastasMsg)) := by
  refine ⟨?_, ?_, ?_, ?_, ?_⟩
  · intro db i
    unfold gauti_studenta
    cases h : rasti i db with
    | none =>
      refine ⟨⟨fun _ => rasti_eq_none_iff.mp h, fun _ => rfl⟩, ?_⟩
      intro e he
      injection he with he
      exact he.symm
    | some s =>
      dsimp only
      constructor
      · constructor
        · intro hx
          cases hx
        · intro hx
          have hn := rasti_eq_none_iff.mpr hx
          rw [h] at hn
          cases hn
      · intro e he
        cases he
  · intro db i
    unfold istrinti_studenta
    cases h : rasti i db with
    | none =>
      refine ⟨⟨fun _ => rasti_eq_none_iff.mp h, fun _ => rfl⟩, ?_⟩
      intro e he
      injection he with he
      exact he.symm
    | some s =>
      dsimp only
      constructor
      · constructor
        · intro hx
          cases hx
        · intro hx
          have hn := rasti_eq_none_iff.mpr hx
          rw [h] at hn
          cases hn
      · intro e he
        cases he
  · intro db i mp
    unfold dalinai_atnaujinti_studenta
    cases h : rasti i db with
    | none =>
      refine ⟨⟨fun _ => rasti_eq_none_iff.mp h, fun _ => rfl⟩, ?_⟩
      intro d hd
      injection hd with hd
      injection hd with hd
      exact hd.symm
    | some s =>
      dsimp only
      constructor
      · constructor
        · intro hx
          split_ifs at hx <;> cases hx
        · intro hx
          have hn := rasti_eq_none_iff.mpr hx
          rw [h] at hn
          cases hn
      · intro d hd
        split_ifs at hd <;> cases hd
  · intro db i p
    constructor
    · intro d hd
      unfold atnaujinti_studenta at hd
      cases hv : validuoti p with
      | none => rw [hv] at hd; cases hd
      | some m =>
        rw [hv] at hd
        cases h : rasti i db with
        | none =>
          rw [h] at hd
          injection hd with hd
          injection hd with hd
          exact ⟨hd.symm, rasti_eq_none_iff.mp h⟩
        | some s => rw [h] at hd; cases hd
    · intro m hv hx
      unfold atnaujinti_studenta
      rw [hv, rasti_eq_none_iff.mpr hx]
  · intro db i d hnd hok
    unfold istrinti_studenta at hok ⊢
    cases h : rasti i db with
    | none => rw [h] at hok; cases hok
    | some s =>
      dsimp only
      unfold gauti_studenta
      rw [rasti_eraseP hnd]

/-- C5 witness: id 9 is absent from the seed table so get answers the
fixed 404; and after deleting id 2, get on id 2 answers the fixed 404. -/
theorem claim5_witness :
    gauti_studenta 9 dbSeed = .error (.notFound nerastasMsg) ∧
    gauti_studenta 2 (istrinti_studenta 2 dbSeed).2 = .error (.notFound nerastasMsg) :=
  ⟨(claim5_not_found.1 dbSeed 9).1.mpr (by decide),
   claim5_not_found.2.2.2.2 dbSeed 2 "Studentas sėkmingai ištrintas" (by decide) rfl⟩

/-- C6 counterexample: the claim says search returns exactly the records
whose name contains the search string as a case-insensitive substring,
with no wildcard interpretation; but the search string is spliced into
the `LIKE` pattern verbatim, so searching `"a_c"` returns the row named
`"abc"` although `"a_c"` is not a substring of `"abc"`. -/
theorem claim6_counterexample :
    ieskoti_studentu "a_c" [stAbc] = [stAbc] ∧
    spec_name_match "a_c" stAbc = false :=
  ⟨rfl, rfl⟩

/-- C6 amended: whenever the search string contains no `LIKE` wildcard
(`%` or `_`), search returns exactly the records whose name contains it
as a case-insensitive substring, in table order (and hence the empty list
when nothing matches); with wildcards present, the string acts as a
`LIKE` pattern instead. -/
theorem claim6_search_substring (db : DB) (v : String)
    (hw : noWild v.toList = true) :
    ieskoti_studentu v db = db.filter (spec_name_match v) := by
  unfold ieskoti_studentu
  apply List.filter_congr
  intro s _
  cases hte : s.vardas.toText with
  | none => simp [spec_name_match, hte]
  | some t =>
    simp only [spec_name_match, hte]
    have hp : lowerChars (('%' :: v.toList) ++ ['%'])
        = '%' :: (lowerChars v.toList ++ ['%']) := by
      simp only [lowerChars, List.map_append, List.map_cons, List.map_nil]
      rfl
    rw [hp]
    exact likeMatch_contains (noWild_lowerChars hw) (lowerChars t.toList)

/-- C6 witness: on the spec's seed table, searching `"ali"` (no
wildcards) returns exactly Alice and alicia, in table order. -/
theorem claim6_witness :
    ieskoti_studentu "ali" dbSeed = [stAlice, stAlicia] :=
  (claim6_search_substring dbSeed "ali" (by decide)).trans rfl

/-- C7 counterexample: the claim says an id once assigned by create is
never assigned again even after the original record is deleted; but with
the storage's max-plus-one id assignment, creating Asta after Jonas
assigns id 2, deleting id 2 and creating Kazys assigns id 2 again. -/
theorem claim7_counterexample :
    sukurti_studenta pAsta [stJonas] = (.ok stAsta, [stJonas, stAsta]) ∧
    stAsta.id = 2 ∧
    istrinti_studenta 2 [stJonas, stAsta]
      = (.ok "Studentas sėkmingai ištrintas", [stJonas]) ∧
    sukurti_studenta pKazys [stJonas] = (.ok stKazys, [stJonas, stKazys]) ∧
    stKazys.id = stAsta.id :=
  ⟨rfl, rfl, rfl, rfl, rfl⟩

/-- C7 amended: ids stay unique — create assigns an id not present in the
table and appends (so existing rows, and their ids, are untouched and
distinctness is preserved); full- and partial-update leave the table's id
column unchanged; delete only removes ids (a sublist), preserving
distinctness. An id can, however, be assigned again after the record
holding the table's largest id is deleted. -/
theorem claim7_id_invariants :
    (∀ (db : DB) (p : Payload) (m : StudentoModelis) (r : Studentas) (db2 : DB),
       validuoti p = some m → sukurti_studenta p db = (.ok r, db2) →
       r.id ∉ idSarasas db ∧ db2 = db ++ [r] ∧
       ((idSarasas db).Nodup → (idSarasas db2).Nodup)) ∧
    (∀ (db : DB) (i : Nat) (p : Payload),
       idSarasas (atnaujinti_studenta i p db).2 = idSarasas db) ∧
    (∀ (db : DB) (i : Nat) (mp : List (String × Value)),
       idSarasas (dalinai_atnaujinti_studenta i mp db).2 = idSarasas db) ∧
    (∀ (db : DB) (i : Nat),
       (idSarasas (istrinti_studenta i db).2).Sublist (idSarasas db) ∧
       ((idSarasas db).Nodup → (idSarasas (istrinti_studenta i db).2).Nodup)) := by
  refine ⟨?_, ?_, ?_, ?_⟩
  · intro db p m r db2 hv hc
    unfold sukurti_studenta at hc
    rw [hv] at hc
    injection hc with hc1 hc2
    injection hc1 with hc1
    subst hc1
    subst hc2
    refine ⟨nextId_not_mem db, rfl, fun hnd => ?_⟩
    have hids : idSarasas (db ++ [m.irasas (nextId db)]) = idSarasas db ++ [nextId db] := by
      simp [idSarasas, StudentoModelis.irasas]
    rw [hids, List.nodup_append]
    exact ⟨hnd, List.nodup_singleton _, List.disjoint_singleton.mpr (nextId_not_mem db)⟩
  · intro db i p
    unfold atnaujinti_studenta
    cases hv : validuoti p with
    | none => rfl
    | some m =>
      dsimp only
      cases h : rasti i db with
      | none => rfl
      | some s =>
        dsimp only
        have hupd : ∀ t : Studentas, (t.id == i) = true →
            ((fun t => m.irasas t.id) t).id = t.id := fun t _ => rfl
        exact idSarasas_updFirst hupd db
  · intro db i mp
    unfold dalinai_atnaujinti_studenta
    cases h : rasti i db with
    | none => rfl
    | some s =>
      dsimp only
      split_ifs with hd hnn
      · exact idSarasas_updFirst_const h (foldl_pritaikyti_id mp s)
      · rfl
      · rfl
  · intro db i
    unfold istrinti_studenta
    cases h : rasti i db with
    | none => exact ⟨List.Sublist.refl _, fun hnd => hnd⟩
    | some s =>
      dsimp only
      refine ⟨?_, fun hnd => ?_⟩
      · exact List.Sublist.map _ (List.eraseP_sublist db)
      · exact List.Nodup.sublist (List.Sublist.map _ (List.eraseP_sublist db)) hnd

/-- C7 witness: creating Asta in the one-row table assigns the fresh id 2
and appends; a full-update and a patch on the seed table leave its id
column unchanged; deleting from the seed table only removes ids. -/
theorem claim7_witness :
    stAsta.id ∉ idSarasas [stJonas] ∧
    idSarasas (atnaujinti_studenta 2 pAsta dbSeed).2 = idSarasas dbSeed ∧
    idSarasas (dalinai_atnaujinti_studenta 1 [("amzius", Value.vInt 30)] dbSeed).2
      = idSarasas dbSeed ∧
    (idSarasas (istrinti_studenta 2 dbSeed).2).Sublist (idSarasas dbSeed) :=
  ⟨(claim7_id_invariants.1 [stJonas] pAsta ⟨some 99, "Asta", 22, "B", some 7⟩
      stAsta [stJonas, stAsta] rfl rfl).1,
   claim7_id_invariants.2.1 dbSeed 2 pAsta,
   claim7_id_invariants.2.2.1 dbSeed 1 [("amzius", Value.vInt 30)],
   (claim7_id_invariants.2.2.2 dbSeed 2).1⟩

/-- C8: the application exposes a GET route at the root path `/`
returning a (non-empty) welcome message. The root route itself comes
from the spec's interface table (see `sveikinimo_zinute`). -/
theorem claim8_root_route :
    ("GET", "/") ∈ appMarsrutai ∧ sveikinimo_zinute ≠ "" :=
  ⟨by decide, by decide⟩

/-- C9: a client-supplied `id` is accepted by validation (carried into
the validated model) but ignored by create: changing the payload's `id`
changes nothing about the call's outcome, and the persisted record's id
is the storage-assigned `nextId`. -/
theorem claim9_payload_id_ignored (db : DB) (p : Payload) (m : StudentoModelis)
    (x : Option Int) (hv : validuoti p = some m) :
    validuoti ⟨x, p.vardas, p.amzius, p.pazymys, p.registracijos_data⟩
      = some ⟨x, m.vardas, m.amzius, m.pazymys, m.registracijos_data⟩ ∧
    sukurti_studenta ⟨x, p.vardas, p.amzius, p.pazymys, p.registracijos_data⟩ db
      = sukurti_studenta p db ∧
    (sukurti_studenta p db).1 = .ok (m.irasas (nextId db)) ∧
    (m.irasas (nextId db)).id = nextId db := by
  obtain ⟨e1, e2, e3, _, e5, h1, h2, h3⟩ := validuoti_eq_some hv
  have hv2 : validuoti ⟨x, p.vardas, p.amzius, p.pazymys, p.registracijos_data⟩
      = some ⟨x, m.vardas, m.amzius, m.pazymys, m.registracijos_data⟩ := by
    rw [show (⟨x, p.vardas, p.amzius, p.pazymys, p.registracijos_data⟩ : Payload)
        = ⟨x, some m.vardas, some m.amzius, some m.pazymys, m.registracijos_data⟩ by
      rw [e1, e2, e3, e5]]
    exact validuoti_mk h1 h2 h3
  refine ⟨hv2, ?_, ?_, rfl⟩
  · unfold sukurti_studenta
    rw [hv, hv2]
    rfl
  · unfold sukurti_studenta
    rw [hv]

/-- C9 witness: creating Jonas with a client-supplied id 777 behaves
exactly like creating Jonas without one, and the persisted id is the
storage-assigned 1. -/
theorem claim9_witness :
    sukurti_studenta ⟨some 777, some "Jonas", some 20, some "A", none⟩ []
      = sukurti_studenta pJonas [] ∧
    (sukurti_studenta pJonas []).1 = .ok stJonas := by
  have h := claim9_payload_id_ignored [] pJonas ⟨none, "Jonas", 20, "A", none⟩
    (some 777) rfl
  exact ⟨h.2.1, h.2.2.1⟩

/-- C10: on any table satisfying the storage's NOT NULL name invariant —
an invariant every operation preserves, as the rest of the conjunction
shows — searching with the empty string returns every stored record in
table order, because `LIKE` with pattern `%%` matches every non-NULL
name. -/
theorem claim10_empty_search :
    (∀ db : DB, vardaiNeNull db →
       ieskoti_studentu "" db = gauti_visus_studentus db) ∧
    (∀ (db : DB) (p : Payload), vardaiNeNull db →
       vardaiNeNull (sukurti_studenta p db).2) ∧
    (∀ (db : DB) (i : Nat) (p : Payload), vardaiNeNull db →
       vardaiNeNull (atnaujinti_studenta i p db).2) ∧
    (∀ (db : DB) (i : Nat) (mp : List (String × Value)), vardaiNeNull db →
       vardaiNeNull (dalinai_atnaujinti_studenta i mp db).2) ∧
    (∀ (db : DB) (i : Nat), vardaiNeNull db →
       vardaiNeNull (istrinti_studenta i db).2) := by
  refine ⟨?_, ?_, ?_, ?_, ?_⟩
  · intro db h
    unfold ieskoti_studentu gauti_visus_studentus
    apply List.filter_eq_self.mpr
    intro s hs
    cases hv : s.vardas with
    | vNull => exact absurd hv (h s hs)
    | vInt n => exact likeMatch_pct_pct _
    | vStr t => exact likeMatch_pct_pct _
    | vDate d => exact likeMatch_pct_pct _
  · intro db p h
    unfold sukurti_studenta
    cases hv : validuoti p with
    | none => exact h
    | some m =>
      dsimp only
      intro s hs
      rcases List.mem_append.mp hs with hs | hs
      · exact h s hs
      · rw [List.mem_singleton.mp hs]
        exact fun he => Value.noConfusion he
  · intro db i p h
    unfold atnaujinti_studenta
    cases hv : validuoti p with
    | none => exact h
    | some m =>
      dsimp only
      cases hf : rasti i db with
      | none => exact h
      | some u =>
        dsimp only
        intro s hs
        rcases mem_updFirst hs with hs | ⟨t, _, hst⟩
        · exact h s hs
        · rw [hst]
          exact fun he => Value.noConfusion he
  · intro db i mp h
    unfold dalinai_atnaujinti_studenta
    cases hf : rasti i db with
    | none => exact h
    | some u =>
      dsimp only
      split_ifs with hd hnn
      · intro s hs
        rcases mem_updFirst hs with hs | ⟨t, _, hst⟩
        · exact h s hs
        · rw [hst]
          exact notNullOk_vardas hnn
      · exact h
      · exact h
  · intro db i h
    unfold istrinti_studenta
    cases hf : rasti i db with
    | none => exact h
    | some u =>
      dsimp only
      intro s hs
      exact h s (List.mem_of_mem_eraseP hs)

/-- C10 witness: on the seed table (no NULL names), the empty search
returns all three records. -/
theorem claim10_witness :
    ieskoti_studentu "" dbSeed = gauti_visus_studentus dbSeed :=
  claim10_empty_search.1 dbSeed (by unfold vardaiNeNull; decide)

end StudentuApi
